import Mathlib

/-!
Shallow embedding of the session/tool bridging protocol of the
react-capacitor-foundationmodel repository.

The embedded code comes from:
- src/src/services/foundation.modelsservice (TypeScript client service wrapper):
  availability gate, gated generation/session operations, streaming listener
  multiplexing, tool-call bridge listener;
- src/unnamed/part003 (Swift plugin/provider): native tool registry
  (registerTool), pending tool-call resolution (resolveToolCall), and the
  dynamic JSON-schema validation of generateWithDynamicSchema (identical to
  the copy in src/ios/App/App).

Asynchronous provider calls are modelled by passing their outcome as an
explicit argument of type Except String alpha; the JavaScript Map is modelled
as an association list with Map semantics (set replaces in place, delete
removes the entry, keys in insertion order).
-/

namespace FM

/-- Availability status union from the TypeScript AvailabilityResult type. -/
inductive AvailStatus where
  | available
  | notEnabled
  | notEligible
  | notReady
  | unavailable
  | notSupported
deriving DecidableEq, Repr

/-- Result of checkAvailability. -/
structure AvailabilityResult where
  available : Bool
  status : AvailStatus
  reason : String
deriving DecidableEq, Repr

/-- Wrapper error taxonomy: AvailabilityError carries the specific status;
every other FoundationModelsError carries a message and a machine code. -/
inductive FMError where
  | availability (status : AvailStatus) (reason : String)
  | generic (message : String) (code : String)
deriving DecidableEq, Repr

/-- ensureAvailable: throws an AvailabilityError carrying the status when the
availability check reports available = false. -/
def ensureAvailable (a : AvailabilityResult) : Except FMError Unit :=
  if a.available then Except.ok () else Except.error (FMError.availability a.status a.reason)

/-- ConversationSession record kept in the wrapper session table. -/
structure ConversationSession where
  sessionId : String
  isActive : Bool
  messageCount : Nat
deriving DecidableEq, Repr

/-- JavaScript Map.get: value of the first (unique) binding of the key. -/
def mapGet {α : Type} : List (String × α) → String → Option α
  | [], _ => none
  | (k', v) :: rest, k => if k' = k then some v else mapGet rest k

/-- JavaScript Map.set: replace the value in place if the key is present,
otherwise append the new binding at the end (insertion order). -/
def mapSet {α : Type} : List (String × α) → String → α → List (String × α)
  | [], k, v => [(k, v)]
  | (k', v') :: rest, k, v =>
    if k' = k then (k', v) :: rest else (k', v') :: mapSet rest k v

/-- JavaScript Map.delete: remove the (unique) binding of the key. -/
def mapDelete {α : Type} : List (String × α) → String → List (String × α)
  | [], _ => []
  | (k', v') :: rest, k => if k' = k then rest else (k', v') :: mapDelete rest k

/-- The wrapper session table activeSessions. -/
abbrev SessionTable := List (String × ConversationSession)

/-- generateText: availability gate, then the provider call; provider failure
is wrapped as GENERATION_FAILED. Second component records whether the
underlying provider generation call was attempted. -/
def generateText (avail : AvailabilityResult) (provider : Except String String) :
    Except FMError String × Bool :=
  match ensureAvailable avail with
  | Except.error e => (Except.error e, false)
  | Except.ok _ =>
    match provider with
    | Except.ok t => (Except.ok t, true)
    | Except.error _ =>
      (Except.error (FMError.generic "Text generation failed" "GENERATION_FAILED"), true)

/-- generateSummary: availability gate, then the provider call. -/
def generateSummary (avail : AvailabilityResult) (provider : Except String String) :
    Except FMError String × Bool :=
  match ensureAvailable avail with
  | Except.error e => (Except.error e, false)
  | Except.ok _ =>
    match provider with
    | Except.ok j => (Except.ok j, true)
    | Except.error _ =>
      (Except.error (FMError.generic "Summary generation failed" "SUMMARY_FAILED"), true)

/-- generateWithInstructions: availability gate, then the provider call. -/
def generateWithInstructions (avail : AvailabilityResult) (provider : Except String String) :
    Except FMError String × Bool :=
  match ensureAvailable avail with
  | Except.error e => (Except.error e, false)
  | Except.ok _ =>
    match provider with
    | Except.ok t => (Except.ok t, true)
    | Except.error _ =>
      (Except.error
        (FMError.generic "Instruction-based generation failed" "INSTRUCTION_GENERATION_FAILED"),
        true)

/-- The gated start of generateStreaming: availability gate, then the provider
start call returning the stream id. -/
def generateStreamingStart (avail : AvailabilityResult) (provider : Except String String) :
    Except FMError String × Bool :=
  match ensureAvailable avail with
  | Except.error e => (Except.error e, false)
  | Except.ok _ =>
    match provider with
    | Except.ok sid => (Except.ok sid, true)
    | Except.error _ =>
      (Except.error (FMError.generic "Streaming generation failed" "STREAMING_FAILED"), true)

/-- createConversationSession: availability gate, provider createSession call,
then insertion of an active zero-count session under the returned id.
Returns (result, new table, provider attempted). -/
def createConversationSession (avail : AvailabilityResult) (provider : Except String String)
    (st : SessionTable) : Except FMError ConversationSession × SessionTable × Bool :=
  match ensureAvailable avail with
  | Except.error e => (Except.error e, st, false)
  | Except.ok _ =>
    match provider with
    | Except.error _ =>
      (Except.error (FMError.generic "Session creation failed" "SESSION_CREATION_FAILED"),
        st, true)
    | Except.ok sid =>
      (Except.ok ⟨sid, true, 0⟩, mapSet st sid ⟨sid, true, 0⟩, true)

/-- continueConversation: availability gate, session lookup (failing with
SESSION_NOT_FOUND when the id is absent or the session inactive), provider
call, then messageCount increment on success.
Returns (result, new table, provider attempted). -/
def continueConversation (avail : AvailabilityResult) (provider : Except String String)
    (st : SessionTable) (sessionId : String) : Except FMError String × SessionTable × Bool :=
  match ensureAvailable avail with
  | Except.error e => (Except.error e, st, false)
  | Except.ok _ =>
    match mapGet st sessionId with
    | none =>
      (Except.error (FMError.generic "Session not found or inactive" "SESSION_NOT_FOUND"),
        st, false)
    | some s =>
      if s.isActive then
        match provider with
        | Except.error _ =>
          (Except.error (FMError.generic "Conversation continuation failed" "CONVERSATION_FAILED"),
            st, true)
        | Except.ok text =>
          (Except.ok text,
            mapSet st sessionId { s with messageCount := s.messageCount + 1 }, true)
      else
        (Except.error (FMError.generic "Session not found or inactive" "SESSION_NOT_FOUND"),
          st, false)

/-- endConversationSession: if the id is present, flip the session inactive
and delete it from the table (the net table effect is the deletion);
otherwise do nothing. Never fails. -/
def endConversationSession (st : SessionTable) (sessionId : String) : SessionTable :=
  match mapGet st sessionId with
  | none => st
  | some _ => mapDelete st sessionId

/-- getActiveSessionIds: keys of the table filtered by the isActive flag of
the stored session. -/
def getActiveSessionIds (st : SessionTable) : List String :=
  (st.map Prod.fst).filter (fun id =>
    match mapGet st id with
    | some s => s.isActive
    | none => false)

/-- registerTool in the service class: no availability gate, the provider call
is attempted directly; the avail argument records the ambient availability
state, which the source never consults. -/
def registerToolSvc (avail : AvailabilityResult) (provider : Except String Bool) :
    Except FMError Bool × Bool :=
  match provider with
  | Except.ok b => (Except.ok b, true)
  | Except.error _ =>
    (Except.error (FMError.generic "Failed to register tool" "TOOL_REGISTRATION_FAILED"), true)

/-- sendToolResult in the service class: no availability gate either. -/
def sendToolResultSvc (avail : AvailabilityResult) (provider : Except String Bool) :
    Except FMError Bool × Bool :=
  match provider with
  | Except.ok b => (Except.ok b, true)
  | Except.error _ =>
    (Except.error (FMError.generic "Failed to send tool result" "TOOL_RESULT_SEND_FAILED"), true)

/-- The streamingUpdate event payload delivered by the native bridge. -/
structure StreamingChunk where
  chunk : String
  callId : String
deriving DecidableEq, Repr

/-- Sentinel chunk signalling stream completion. -/
def STREAMCOMPLETE : String := "[STREAM_COMPLETE]"

/-- Sentinel chunk signalling a stream error. -/
def STREAMERROR : String := "[STREAM_ERROR]"

/-- One step of the streaming event dispatch: the global streamingUpdate
handler routes the event to the listener registered under its callId (events
with no registered listener are dropped with a warning); the per-stream
listener installed by generateStreaming deregisters itself on either sentinel
and forwards the sentinel literal to the caller (Notify the UI), and forwards
every other chunk unchanged. The listener table is modelled by the list of
stream ids holding the generateStreaming listener; the result is the new
table and the (streamId, chunk) forwarded to that stream's caller, if any. -/
def handleEvent (ls : List String) (e : StreamingChunk) :
    List String × Option (String × String) :=
  if e.callId ∈ ls then
    if e.chunk = STREAMCOMPLETE then (ls.erase e.callId, some (e.callId, e.chunk))
    else if e.chunk = STREAMERROR then (ls.erase e.callId, some (e.callId, e.chunk))
    else (ls, some (e.callId, e.chunk))
  else (ls, none)

/-- Dispatch of a whole sequence of streamingUpdate events, collecting the
forwarded (streamId, chunk) pairs in order. -/
def runEvents : List String → List StreamingChunk →
    List String × List (String × String)
  | ls, [] => (ls, [])
  | ls, e :: rest =>
    let he := handleEvent ls e
    let r := runEvents he.1 rest
    (r.1, (match he.2 with | some o => [o] | none => []) ++ r.2)

/-- The chunks forwarded to the caller of stream sid, extracted from the
dispatch output. -/
def outputsFor (sid : String) : List (String × String) → List String
  | [] => []
  | (i, c) :: rest =>
    if i = sid then c :: outputsFor sid rest else outputsFor sid rest

/-- The incoming chunks addressed to stream sid. -/
def streamChunks (sid : String) : List StreamingChunk → List String
  | [] => []
  | e :: rest =>
    if e.callId = sid then e.chunk :: streamChunks sid rest else streamChunks sid rest

/-- A chunk is a sentinel when it is one of the two terminal literals. -/
def isSentinel (c : String) : Prop := c = STREAMCOMPLETE ∨ c = STREAMERROR

instance (c : String) : Decidable (isSentinel c) := by
  unfold isSentinel
  infer_instance

/-- The chunk sequence a single stream's caller should observe given the
stream's incoming chunks: everything up to and including the first
sentinel. -/
def forwardedForStream : List String → List String
  | [] => []
  | c :: rest => if isSentinel c then [c] else c :: forwardedForStream rest

/-- Order of effects inside generateStreaming. -/
inductive StreamAction where
  | checkAvail
  | providerStart
  | registerListener (streamId : String)
deriving DecidableEq, Repr

/-- generateStreaming performs, in order: the availability check; the provider
start call (which on the native side launches the chunk-emitting task before
resolving); and only after the start call resolves with the stream id, the
registration of the chunk listener under that id. -/
def generateStreamingTrace (avail : AvailabilityResult) (provider : Except String String) :
    List StreamAction :=
  match ensureAvailable avail with
  | Except.error _ => [StreamAction.checkAvail]
  | Except.ok _ =>
    StreamAction.checkAvail :: StreamAction.providerStart ::
      (match provider with
       | Except.error _ => []
       | Except.ok sid => [StreamAction.registerListener sid])

/-- The toolCall event payload delivered by the native bridge. -/
structure ToolCallEvent where
  toolId : String
  callId : String
  payload : String
deriving DecidableEq, Repr

/-- A sendToolResult message posted back to the native side. -/
structure ToolResultMsg where
  callId : String
  output : String
deriving DecidableEq, Repr

/-- Outcome of running a client-side tool handler on a payload: a string
result, a non-string result together with its JSON serialization, or a thrown
error with its message. -/
inductive HandlerOutcome where
  | strResult (s : String)
  | jsonResult (json : String)
  | thrown (message : String)
deriving DecidableEq, Repr

/-- The toolCall listener of the service module: look up the handler for the
event's toolId in jsToolHandlers; with no handler, post an empty result; on a
string result post it, on a non-string result post its serialization, and on a
thrown error post an error-string payload. The returned list is the sequence
of sendToolResult calls the listener performs for the event. -/
def toolCallListener (handlers : List (String × (String → HandlerOutcome)))
    (ev : ToolCallEvent) : List ToolResultMsg :=
  match mapGet handlers ev.toolId with
  | none => [⟨ev.callId, ""⟩]
  | some h =>
    match h ev.payload with
    | HandlerOutcome.strResult s => [⟨ev.callId, s⟩]
    | HandlerOutcome.jsonResult j => [⟨ev.callId, j⟩]
    | HandlerOutcome.thrown m => [⟨ev.callId, "Error: " ++ m⟩]

/-- resolveToolCall on the provider side: the pending continuation table is
modelled by its list of pending call ids. If the callId is pending, resume
the continuation with the output and remove it; otherwise return without
effect. The result is the new pending set and the output resumed, if any. -/
def resolveToolCall (pending : List String) (callId output : String) :
    List String × Option String :=
  if callId ∈ pending then (pending.erase callId, some output) else (pending, none)

/-- An entry of the native tool registry: the registered name and
description (the bridge object also holds the plugin reference, which the
claims do not concern). -/
structure NativeToolEntry where
  name : String
  description : String
deriving DecidableEq, Repr

/-- The native registerTool: return unchanged when the toolId is already
registered, otherwise insert the new entry. -/
def registerToolNative (reg : List (String × NativeToolEntry))
    (toolId nm ds : String) : List (String × NativeToolEntry) :=
  match mapGet reg toolId with
  | some _ => reg
  | none => mapSet reg toolId ⟨nm, ds⟩

/-- registerCustomTool in the service module: set the handler in
jsToolHandlers (Map.set, hence replacing any previous handler), then forward
the registration to the native registry. H is the type of client handlers. -/
def registerCustomTool {H : Type} (handlers : List (String × H))
    (reg : List (String × NativeToolEntry)) (toolId nm ds : String) (handler : H) :
    List (String × H) × List (String × NativeToolEntry) :=
  (mapSet handlers toolId handler, registerToolNative reg toolId nm ds)

/-- JSON values, for the parsed schema argument of generateWithDynamicSchema
(numeric field values are irrelevant to the validation logic and modelled by
integers). -/
inductive JValue where
  | jnull
  | jbool (b : Bool)
  | jnum (n : Int)
  | jstr (s : String)
  | jarr (items : List JValue)
  | jobj (fields : List (String × JValue))

/-- Swift cast of a JSON value to String (as? String). -/
def getStr : JValue → Option String
  | JValue.jstr s => some s
  | _ => none

/-- Swift cast of a JSON value to a dictionary (as? [String: Any]). -/
def asObj : JValue → Option (List (String × JValue))
  | JValue.jobj fields => some fields
  | _ => none

/-- Dictionary subscript on a parsed JSON object. -/
def objGet (fields : List (String × JValue)) (k : String) : Option JValue :=
  mapGet fields k

/-- The dynamic generation schemas the provider can build: the four
primitives, or an array of a schema. -/
inductive DSchema where
  | dstring
  | dnumber
  | dinteger
  | dboolean
  | darray (elem : DSchema)
deriving DecidableEq, Repr

/-- primitiveSchema(for:) of generateWithDynamicSchema: maps the four
supported primitive JSON types, throws on anything else. -/
def primitiveSchema (jsonType : String) : Except String DSchema :=
  if jsonType = "string" then Except.ok DSchema.dstring
  else if jsonType = "number" then Except.ok DSchema.dnumber
  else if jsonType = "integer" then Except.ok DSchema.dinteger
  else if jsonType = "boolean" then Except.ok DSchema.dboolean
  else Except.error ("Unsupported JSON Schema primitive type: " ++ jsonType)

/-- The per-property schema construction: the array branch applies when the
type is array and items carries a string type (building an array of the item
primitive); every other case goes through primitiveSchema on the property's
own type string (so type array without well-formed items also throws). -/
def buildProp (spec : List (String × JValue)) (typeString : String) : Except String DSchema :=
  if typeString = "array" then
    match (objGet spec "items").bind asObj with
    | some items =>
      match (objGet items "type").bind getStr with
      | some itemType => (primitiveSchema itemType).map DSchema.darray
      | none => primitiveSchema typeString
    | none => primitiveSchema typeString
  else primitiveSchema typeString

/-- The property loop of generateWithDynamicSchema: a property whose spec is
not an object carrying a string type field is skipped (continue); otherwise
its schema is built, propagating any thrown error. -/
def buildProps : List (String × JValue) → Except String (List (String × DSchema))
  | [] => Except.ok []
  | (propName, specAny) :: rest =>
    match asObj specAny with
    | none => buildProps rest
    | some spec =>
      match (objGet spec "type").bind getStr with
      | none => buildProps rest
      | some typeString =>
        match buildProp spec typeString with
        | Except.error e => Except.error e
        | Except.ok s =>
          match buildProps rest with
          | Except.error e => Except.error e
          | Except.ok l => Except.ok ((propName, s) :: l)

/-- The schema validation of generateWithDynamicSchema on the parsed schema:
a non-object document is an invalid JSON schema; the top level must carry
type equal to object and an object-valued properties field; then the
properties are processed by the property loop. -/
def buildRootProperties (top : JValue) : Except String (List (String × DSchema)) :=
  match top with
  | JValue.jobj fields =>
    if (objGet fields "type").bind getStr = some "object" then
      match (objGet fields "properties").bind asObj with
      | some props => buildProps props
      | none => Except.error "Only object schemas with properties are supported"
    else Except.error "Only object schemas with properties are supported"
  | _ => Except.error "Invalid JSON schema"

/-- generateWithDynamicSchema: validate and build the schema, and only on
success issue the provider generation call; the Bool records whether the
provider call was attempted. -/
def generateWithDynamicSchema (top : JValue) (provider : Except String String) :
    Except String String × Bool :=
  match buildRootProperties top with
  | Except.error e => (Except.error e, false)
  | Except.ok _ =>
    match provider with
    | Except.ok r => (Except.ok r, true)
    | Except.error e => (Except.error e, true)

/-- A built schema the claim calls supported: a primitive, or an array of a
primitive. -/
def supportedSchema : DSchema → Bool
  | DSchema.darray (DSchema.darray _) => false
  | DSchema.darray _ => true
  | _ => true

/-- States of the wrapper session table reachable by any sequence of
createConversationSession, continueConversation and endConversationSession
calls from the initial empty table. -/
inductive Reach : SessionTable → Prop where
  | init : Reach []
  | create (avail : AvailabilityResult) (provider : Except String String)
      (st : SessionTable) : Reach st →
      Reach (createConversationSession avail provider st).2.1
  | cont (avail : AvailabilityResult) (provider : Except String String)
      (st : SessionTable) (sid : String) : Reach st →
      Reach (continueConversation avail provider st sid).2.1
  | stop (st : SessionTable) (sid : String) : Reach st →
      Reach (endConversationSession st sid)

/-- A schema whose property a has no type field at all. -/
def badSchema : JValue :=
  JValue.jobj [("type", JValue.jstr "object"),
    ("properties", JValue.jobj [("a", JValue.jobj [("oops", JValue.jbool true)])])]

/-- A schema whose property a is a nested object. -/
def nestedSchema : JValue :=
  JValue.jobj [("type", JValue.jstr "object"),
    ("properties", JValue.jobj [("a", JValue.jobj [("type", JValue.jstr "object")])])]

/-- A first registerCustomTool call for tool id t (client handlers modelled
by string tags). -/
def regOnce : List (String × String) × List (String × NativeToolEntry) :=
  registerCustomTool [] [] "t" "Calculator" "Adds two numbers" "handlerA"

/-- A second registerCustomTool call for the same tool id t with a different
name, description and handler. -/
def regTwice : List (String × String) × List (String × NativeToolEntry) :=
  registerCustomTool regOnce.1 regOnce.2 "t" "Calculator v2" "Changed description" "handlerB"

/-- An availability result reporting the models ready. -/
def availEx : AvailabilityResult := ⟨true, AvailStatus.available, "Foundation Models ready"⟩

/-- An availability result reporting Apple Intelligence not enabled. -/
def unavailEx : AvailabilityResult :=
  ⟨false, AvailStatus.notEnabled, "Apple Intelligence not enabled. Please enable in Settings."⟩

/-- A successful lookup is a binding of the table. -/
theorem mapGet_mem {α : Type} {st : List (String × α)} {k : String} {v : α}
    (h : mapGet st k = some v) : (k, v) ∈ st := by
  induction st with
  | nil => simp [mapGet] at h
  | cons p rest ih =>
    obtain ⟨k', v'⟩ := p
    by_cases hk : k' = k
    · subst hk
      simp [mapGet] at h
      subst h
      exact List.mem_cons_self _ _
    · simp [mapGet, hk] at h
      exact List.mem_cons_of_mem _ (ih h)

/-- Lookup of a key of the table succeeds. -/
theorem mapGet_isSome_of_mem_keys {α : Type} {st : List (String × α)} {k : String}
    (h : k ∈ st.map Prod.fst) : ∃ v, mapGet st k = some v := by
  induction st with
  | nil => simp at h
  | cons p rest ih =>
    obtain ⟨k', v'⟩ := p
    by_cases hk : k' = k
    · exact ⟨v', by simp [mapGet, hk]⟩
    · have : k ∈ rest.map Prod.fst := by
        simp at h
        rcases h with h | h
        · exact absurd h.symm hk
        · simpa using h
      obtain ⟨v, hv⟩ := ih this
      exact ⟨v, by simp [mapGet, hk, hv]⟩

/-- Lookup of a key absent from the table fails. -/
theorem mapGet_eq_none_of_not_mem_keys {α : Type} {st : List (String × α)} {k : String}
    (h : k ∉ st.map Prod.fst) : mapGet st k = none := by
  induction st with
  | nil => rfl
  | cons p rest ih =>
    obtain ⟨k', v'⟩ := p
    have h1 : ¬k' = k := by
      intro e
      exact h (by simp [e])
    have h2 : k ∉ rest.map Prod.fst := by
      intro m
      exact h (by simp [m])
    simp [mapGet, h1, ih h2]

/-- Lookup after set at the same key returns the new value. -/
theorem mapGet_mapSet_self {α : Type} (st : List (String × α)) (k : String) (v : α) :
    mapGet (mapSet st k v) k = some v := by
  induction st with
  | nil => simp [mapSet, mapGet]
  | cons p rest ih =>
    obtain ⟨k', v'⟩ := p
    by_cases hk : k' = k
    · simp [mapSet, mapGet, hk]
    · simp [mapSet, mapGet, hk, ih]

/-- A binding of the table after a set is the new binding or an old one. -/
theorem mem_mapSet {α : Type} {st : List (String × α)} {k : String} {v : α}
    {p : String × α} (h : p ∈ mapSet st k v) : p = (k, v) ∨ p ∈ st := by
  induction st with
  | nil =>
    simp only [mapSet] at h
    exact Or.inl (by simpa using h)
  | cons q rest ih =>
    obtain ⟨k', v'⟩ := q
    by_cases hk : k' = k
    · rw [show mapSet ((k', v') :: rest) k v = (k', v) :: rest from by simp [mapSet, hk]] at h
      rcases List.mem_cons.mp h with h | h
      · exact Or.inl (by simp [h, hk])
      · exact Or.inr (List.mem_cons_of_mem _ h)
    · rw [show mapSet ((k', v') :: rest) k v = (k', v') :: mapSet rest k v from by
        simp [mapSet, hk]] at h
      rcases List.mem_cons.mp h with h | h
      · exact Or.inr (by simp [h])
      · rcases ih h with h' | h'
        · exact Or.inl h'
        · exact Or.inr (List.mem_cons_of_mem _ h')

/-- A key of the table after a set is an old key or the set key. -/
theorem mem_keys_mapSet {α : Type} {st : List (String × α)} {k a : String} {v : α}
    (h : a ∈ (mapSet st k v).map Prod.fst) : a ∈ st.map Prod.fst ∨ a = k := by
  rcases List.mem_map.mp h with ⟨p, hp, hfst⟩
  rcases mem_mapSet hp with h' | h'
  · right
    rw [h'] at hfst
    exact hfst.symm
  · left
    exact List.mem_map.mpr ⟨p, h', hfst⟩

/-- Set preserves distinctness of the keys. -/
theorem nodup_keys_mapSet {α : Type} {st : List (String × α)}
    (h : (st.map Prod.fst).Nodup) (k : String) (v : α) :
    ((mapSet st k v).map Prod.fst).Nodup := by
  induction st with
  | nil => simp [mapSet]
  | cons p rest ih =>
    obtain ⟨k', v'⟩ := p
    rw [List.map_cons, List.nodup_cons] at h
    by_cases hk : k' = k
    · rw [show mapSet ((k', v') :: rest) k v = (k', v) :: rest from by simp [mapSet, hk]]
      rw [List.map_cons, List.nodup_cons]
      exact h
    · rw [show mapSet ((k', v') :: rest) k v = (k', v') :: mapSet rest k v from by
        simp [mapSet, hk]]
      rw [List.map_cons, List.nodup_cons]
      refine ⟨?_, ih h.2⟩
      intro hmem
      rcases mem_keys_mapSet hmem with h' | h'
      · exact h.1 h'
      · exact hk h'

/-- A binding of the table after a delete was a binding before. -/
theorem mem_mapDelete {α : Type} {st : List (String × α)} {k : String}
    {p : String × α} (h : p ∈ mapDelete st k) : p ∈ st := by
  induction st with
  | nil => simpa [mapDelete] using h
  | cons q rest ih =>
    obtain ⟨k', v'⟩ := q
    by_cases hk : k' = k
    · simp [mapDelete, hk] at h
      exact List.mem_cons_of_mem _ h
    · simp [mapDelete, hk] at h
      rcases h with h | h
      · exact List.mem_cons.mpr (Or.inl (by simp [h]))
      · exact List.mem_cons_of_mem _ (ih h)

/-- The keys after a delete are a sublist of the keys before. -/
theorem keys_mapDelete_sublist {α : Type} (st : List (String × α)) (k : String) :
    List.Sublist ((mapDelete st k).map Prod.fst) (st.map Prod.fst) := by
  induction st with
  | nil => simp [mapDelete]
  | cons q rest ih =>
    obtain ⟨k', v'⟩ := q
    by_cases hk : k' = k
    · rw [show mapDelete ((k', v') :: rest) k = rest from by simp [mapDelete, hk]]
      rw [List.map_cons]
      exact List.sublist_cons_self _ _
    · rw [show mapDelete ((k', v') :: rest) k = (k', v') :: mapDelete rest k from by
        simp [mapDelete, hk]]
      rw [List.map_cons, List.map_cons]
      exact List.Sublist.cons₂ _ ih

/-- With distinct keys, lookup after delete at the deleted key fails. -/
theorem mapGet_mapDelete_self {α : Type} {st : List (String × α)}
    (h : (st.map Prod.fst).Nodup) (k : String) :
    mapGet (mapDelete st k) k = none := by
  induction st with
  | nil => rfl
  | cons q rest ih =>
    obtain ⟨k', v'⟩ := q
    rw [List.map_cons, List.nodup_cons] at h
    by_cases hk : k' = k
    · subst hk
      rw [show mapDelete ((k', v') :: rest) k' = rest from by simp [mapDelete]]
      exact mapGet_eq_none_of_not_mem_keys h.1
    · rw [show mapDelete ((k', v') :: rest) k = (k', v') :: mapDelete rest k from by
        simp [mapDelete, hk]]
      rw [show mapGet ((k', v') :: mapDelete rest k) k = mapGet (mapDelete rest k) k from by
        simp [mapGet, hk]]
      exact ih h.2

/-- C8: calling endSession twice with the same session identifier produces no
error and no duplicate side effects: the second call, like any call with an
absent identifier, is a no-op leaving the session table as after the first
call (the operation is a total function on the table and never fails). -/
theorem c8_end_session_idempotent (st : SessionTable) (sid : String)
    (hnd : (st.map Prod.fst).Nodup) :
    endConversationSession (endConversationSession st sid) sid
      = endConversationSession st sid
    ∧ (mapGet st sid = none → endConversationSession st sid = st) := by
  constructor
  · cases hget : mapGet st sid with
    | none => simp [endConversationSession, hget]
    | some s =>
      have h2 : mapGet (mapDelete st sid) sid = none := mapGet_mapDelete_self hnd sid
      simp [endConversationSession, hget, h2]
  · intro hget
    simp [endConversationSession, hget]

/-- Witness for c8_end_session_idempotent at a concrete one-session table. -/
theorem c8_witness :
    endConversationSession (endConversationSession [("s1", ⟨"s1", true, 2⟩)] "s1") "s1"
      = endConversationSession [("s1", ⟨"s1", true, 2⟩)] "s1" :=
  (c8_end_session_idempotent [("s1", ⟨"s1", true, 2⟩)] "s1" (by decide)).1

/-- C3 counterexample: the claim as stated fails when the availability gate
does not pass: continueConversation on an unknown id then fails with the
typed availability error, not with the session-not-found error (the table is
still left unchanged). -/
theorem c3_counterexample :
    (continueConversation unavailEx (Except.ok "hi") [] "ghost").1
      = Except.error (FMError.availability AvailStatus.notEnabled
          "Apple Intelligence not enabled. Please enable in Settings.")
    ∧ (continueConversation unavailEx (Except.ok "hi") [] "ghost").1
      ≠ Except.error (FMError.generic "Session not found or inactive" "SESSION_NOT_FOUND") := by
  exact ⟨rfl, by simp [continueConversation, ensureAvailable, unavailEx]⟩

/-- C3 amended: when the availability gate passes, continueConversation on an
id that is absent from the session table (never created), or on any id after
endSession on it, fails with the session-not-found error and leaves the
session table unchanged; no implicit session is created. -/
theorem c3_session_not_found (avail : AvailabilityResult) (provider : Except String String)
    (st : SessionTable) (sid : String)
    (ha : avail.available = true) (hnd : (st.map Prod.fst).Nodup) :
    (mapGet st sid = none →
      continueConversation avail provider st sid
        = (Except.error (FMError.generic "Session not found or inactive" "SESSION_NOT_FOUND"),
            st, false))
    ∧ continueConversation avail provider (endConversationSession st sid) sid
        = (Except.error (FMError.generic "Session not found or inactive" "SESSION_NOT_FOUND"),
            endConversationSession st sid, false) := by
  have hav : ensureAvailable avail = Except.ok () := by simp [ensureAvailable, ha]
  constructor
  · intro hget
    simp [continueConversation, hav, hget]
  · have hget2 : mapGet (endConversationSession st sid) sid = none := by
      cases hget : mapGet st sid with
      | none => simp [endConversationSession, hget]
      | some s =>
        simp only [endConversationSession, hget]
        exact mapGet_mapDelete_self hnd sid
    simp [continueConversation, hav, hget2]

/-- Witness for c3_session_not_found on the empty table. -/
theorem c3_witness :
    continueConversation availEx (Except.ok "hi") [] "ghost"
      = (Except.error (FMError.generic "Session not found or inactive" "SESSION_NOT_FOUND"),
          [], false) :=
  (c3_session_not_found availEx (Except.ok "hi") [] "ghost" rfl (by decide)).1 rfl

/-- C4: a successful continueConversation call on an active session replaces
the session with one whose messageCount is exactly one larger, and every
failed call (availability failure, unknown or inactive session, provider
failure) leaves the session table unchanged. -/
theorem c4_message_count (avail : AvailabilityResult) (provider : Except String String)
    (st : SessionTable) (sid : String) (s : ConversationSession) :
    (avail.available = true → mapGet st sid = some s → s.isActive = true →
      ∀ t, provider = Except.ok t →
        continueConversation avail provider st sid
          = (Except.ok t, mapSet st sid { s with messageCount := s.messageCount + 1 }, true))
    ∧ (∀ e, (continueConversation avail provider st sid).1 = Except.error e →
        (continueConversation avail provider st sid).2.1 = st) := by
  constructor
  · intro ha hget hact t hp
    have hav : ensureAvailable avail = Except.ok () := by simp [ensureAvailable, ha]
    simp [continueConversation, hav, hget, hact, hp]
  · intro e he
    by_cases ha : avail.available = true
    · have hav : ensureAvailable avail = Except.ok () := by simp [ensureAvailable, ha]
      cases hget : mapGet st sid with
      | none => simp [continueConversation, hav, hget]
      | some s' =>
        by_cases hact : s'.isActive = true
        · cases hp : provider with
          | ok t =>
            exfalso
            simp [continueConversation, hav, hget, hact, hp] at he
          | error msg => simp [continueConversation, hav, hget, hact, hp]
        · simp [continueConversation, hav, hget, hact]
    · have hb : avail.available = false := by
        revert ha
        cases avail.available <;> simp
      have hav : ensureAvailable avail
          = Except.error (FMError.availability avail.status avail.reason) := by
        simp [ensureAvailable, hb]
      simp [continueConversation, hav]

/-- Witness for c4_message_count: a successful turn bumps the count 3 to 4. -/
theorem c4_witness :
    continueConversation availEx (Except.ok "reply") [("s1", ⟨"s1", true, 3⟩)] "s1"
      = (Except.ok "reply", [("s1", ⟨"s1", true, 4⟩)], true) := by
  have h := (c4_message_count availEx (Except.ok "reply") [("s1", ⟨"s1", true, 3⟩)] "s1"
      ⟨"s1", true, 3⟩).1 rfl (by decide) rfl "reply" rfl
  simpa [mapSet] using h

/-- C5 counterexample: the tool operations of the service are not gated on
availability: with availability reporting not enabled, registerTool and
sendToolResult still attempt the provider call and succeed, instead of
failing fast with an availability error. -/
theorem c5_counterexample :
    registerToolSvc unavailEx (Except.ok true) = (Except.ok true, true)
    ∧ sendToolResultSvc unavailEx (Except.ok true) = (Except.ok true, true) :=
  ⟨rfl, rfl⟩

/-- C5 amended: whenever checkAvailability reports available = false, every
gated generation and session operation (generateText, generateSummary,
generateWithInstructions, the streaming start, createSession and
continueConversation) fails fast with the typed availability error carrying
the specific status, without attempting the underlying provider call; the
tool operations (registerTool, sendToolResult) and prewarm are not gated. -/
theorem c5_availability_gate (avail : AvailabilityResult)
    (p1 p2 p3 p4 p5 p6 : Except String String) (st : SessionTable) (sid : String)
    (h : avail.available = false) :
    generateText avail p1
      = (Except.error (FMError.availability avail.status avail.reason), false)
    ∧ generateSummary avail p2
      = (Except.error (FMError.availability avail.status avail.reason), false)
    ∧ generateWithInstructions avail p3
      = (Except.error (FMError.availability avail.status avail.reason), false)
    ∧ generateStreamingStart avail p4
      = (Except.error (FMError.availability avail.status avail.reason), false)
    ∧ createConversationSession avail p5 st
      = (Except.error (FMError.availability avail.status avail.reason), st, false)
    ∧ continueConversation avail p6 st sid
      = (Except.error (FMError.availability avail.status avail.reason), st, false) := by
  have hav : ensureAvailable avail
      = Except.error (FMError.availability avail.status avail.reason) := by
    simp [ensureAvailable, h]
  refine ⟨?_, ?_, ?_, ?_, ?_, ?_⟩ <;>
    simp [generateText, generateSummary, generateWithInstructions,
      generateStreamingStart, createConversationSession, continueConversation, hav]

/-- Witness for c5_availability_gate with availability not enabled. -/
theorem c5_witness :
    generateText unavailEx (Except.ok "t")
      = (Except.error (FMError.availability AvailStatus.notEnabled
          "Apple Intelligence not enabled. Please enable in Settings."), false) :=
  (c5_availability_gate unavailEx (Except.ok "t") (Except.ok "t") (Except.ok "t")
    (Except.ok "t") (Except.ok "t") (Except.ok "t") [] "x" rfl).1

/-- Every reachable session table stores only active sessions keyed by their
own sessionId, and has distinct keys. -/
theorem reach_wf {st : SessionTable} (h : Reach st) :
    (∀ p ∈ st, p.2.isActive = true ∧ p.2.sessionId = p.1)
    ∧ (st.map Prod.fst).Nodup := by
  induction h with
  | init => simp
  | create avail provider st hst ih =>
    cases hav : ensureAvailable avail with
    | error e => simpa [createConversationSession, hav] using ih
    | ok u =>
      cases hp : provider with
      | error msg => simpa [createConversationSession, hav, hp] using ih
      | ok sid =>
        simp only [createConversationSession, hav, hp]
        constructor
        · intro p hp'
          rcases mem_mapSet hp' with h' | h'
          · simp [h']
          · exact ih.1 p h'
        · exact nodup_keys_mapSet ih.2 sid _
  | cont avail provider st sid hst ih =>
    cases hav : ensureAvailable avail with
    | error e => simpa [continueConversation, hav] using ih
    | ok u =>
      cases hget : mapGet st sid with
      | none => simpa [continueConversation, hav, hget] using ih
      | some s =>
        by_cases hact : s.isActive = true
        · cases hp : provider with
          | error msg => simpa [continueConversation, hav, hget, hact, hp] using ih
          | ok text =>
            simp only [continueConversation, hav, hget, hact, hp, if_pos]
            constructor
            · intro p hp'
              rcases mem_mapSet hp' with h' | h'
              · have hs : s.isActive = true ∧ s.sessionId = sid := ih.1 _ (mapGet_mem hget)
                simp [h', hact, hs.2]
              · exact ih.1 p h'
            · exact nodup_keys_mapSet ih.2 sid _
        · simpa [continueConversation, hav, hget, hact] using ih
  | stop st sid hst ih =>
    cases hget : mapGet st sid with
    | none => simpa [endConversationSession, hget] using ih
    | some s =>
      simp only [endConversationSession, hget]
      constructor
      · intro p hp'
        exact ih.1 p (mem_mapDelete hp')
      · exact ih.2.sublist (keys_mapDelete_sublist st sid)

/-- C10: in every state of the wrapper reachable by createConversationSession,
continueConversation and endConversationSession calls, every session stored
in the activeSessions table has isActive = true and sits under the key equal
to its own sessionId; consequently getActiveSessionIds returns exactly the
keys of the table. -/
theorem c10_table_invariant (st : SessionTable) (h : Reach st) :
    (∀ p ∈ st, p.2.isActive = true ∧ p.2.sessionId = p.1)
    ∧ getActiveSessionIds st = st.map Prod.fst := by
  have hw := reach_wf h
  refine ⟨hw.1, ?_⟩
  unfold getActiveSessionIds
  apply List.filter_eq_self.mpr
  intro a ha
  obtain ⟨v, hv⟩ := mapGet_isSome_of_mem_keys ha
  have hmem := mapGet_mem hv
  have hinv : v.isActive = true ∧ v.sessionId = a := hw.1 _ hmem
  simp [hv, hinv.1]

/-- Witness for c10_table_invariant at the table reached by one successful
createSession call. -/
theorem c10_witness :
    getActiveSessionIds (createConversationSession availEx (Except.ok "s1") []).2.1
      = ((createConversationSession availEx (Except.ok "s1") []).2.1).map Prod.fst :=
  (c10_table_invariant _ (Reach.create availEx (Except.ok "s1") [] Reach.init)).2

/-- C2: for every provider-initiated toolCall event, the bridge listener
performs exactly one sendToolResult call, keyed by the event's callId: an
empty output when no handler is registered for the toolId, and an
error-string payload when the handler throws; on the provider side, the
first resolution of a pending callId resumes it exactly once, and resolving
an unknown or already-resolved callId is a no-op rather than an error. -/
theorem c2_tool_handshake (handlers : List (String × (String → HandlerOutcome)))
    (ev : ToolCallEvent) (pending : List String) (c o o' : String)
    (hnd : pending.Nodup) :
    ((toolCallListener handlers ev).length = 1
      ∧ ∀ m ∈ toolCallListener handlers ev, m.callId = ev.callId)
    ∧ (mapGet handlers ev.toolId = none →
        toolCallListener handlers ev = [⟨ev.callId, ""⟩])
    ∧ (∀ h m, mapGet handlers ev.toolId = some h →
        h ev.payload = HandlerOutcome.thrown m →
        toolCallListener handlers ev = [⟨ev.callId, "Error: " ++ m⟩])
    ∧ (c ∈ pending →
        resolveToolCall pending c o = (pending.erase c, some o)
        ∧ resolveToolCall (pending.erase c) c o' = (pending.erase c, none))
    ∧ (c ∉ pending → resolveToolCall pending c o = (pending, none)) := by
  refine ⟨⟨?_, ?_⟩, ?_, ?_, ?_, ?_⟩
  · cases hget : mapGet handlers ev.toolId with
    | none => simp [toolCallListener, hget]
    | some h => cases hh : h ev.payload <;> simp [toolCallListener, hget, hh]
  · intro m hm
    cases hget : mapGet handlers ev.toolId with
    | none =>
      simp [toolCallListener, hget] at hm
      simp [hm]
    | some h =>
      cases hh : h ev.payload <;>
        (simp [toolCallListener, hget, hh] at hm; simp [hm])
  · intro hget
    simp [toolCallListener, hget]
  · intro h m hget hh
    simp [toolCallListener, hget, hh]
  · intro hc
    refine ⟨by simp [resolveToolCall, hc], ?_⟩
    have hno : c ∉ pending.erase c := hnd.not_mem_erase
    simp [resolveToolCall, hno]
  · intro hc
    simp [resolveToolCall, hc]

/-- Witness for c2_tool_handshake: a pending call c1 is resolved exactly at
its first resolution. -/
theorem c2_witness :
    resolveToolCall ["c1"] "c1" "4" = (["c1"].erase "c1", some "4") :=
  ((c2_tool_handshake [("calc", fun _ => HandlerOutcome.strResult "4")]
      ⟨"calc", "c1", "2+2"⟩ ["c1"] "c1" "4" "x" (by decide)).2.2.2.1 (by decide)).1

/-- C9 counterexample: re-registering the tool id t replaces the client-side
handler (handlerB overwrites handlerA in jsToolHandlers), so the previously
registered handler is not left unchanged; only the native name/description
entry keeps its first registration. -/
theorem c9_counterexample :
    mapGet regTwice.1 "t" = some "handlerB"
    ∧ mapGet regTwice.1 "t" ≠ some "handlerA"
    ∧ mapGet regTwice.2 "t" = some ⟨"Calculator", "Adds two numbers"⟩ := by
  refine ⟨rfl, by decide, rfl⟩

/-- C9 amended: re-registering an identifier already present in the native
tool registry leaves the native entry (name and description) unchanged, but
the client-side handler map is overwritten: after the call the handler
stored under the identifier is the newly supplied one. -/
theorem c9_registry {H : Type} (handlers : List (String × H))
    (reg : List (String × NativeToolEntry)) (toolId nm ds : String) (h' : H)
    (e : NativeToolEntry) (hreg : mapGet reg toolId = some e) :
    registerToolNative reg toolId nm ds = reg
    ∧ mapGet (registerCustomTool handlers reg toolId nm ds h').1 toolId = some h'
    ∧ (registerCustomTool handlers reg toolId nm ds h').2 = reg := by
  refine ⟨?_, ?_, ?_⟩
  · simp [registerToolNative, hreg]
  · simp [registerCustomTool, mapGet_mapSet_self]
  · simp [registerCustomTool, registerToolNative, hreg]

/-- Witness for c9_registry: re-registering t leaves the native entry as
first registered. -/
theorem c9_witness :
    registerToolNative [("t", ⟨"N1", "D1"⟩)] "t" "N2" "D2" = [("t", ⟨"N1", "D1"⟩)] :=
  (c9_registry ([] : List (String × String)) [("t", ⟨"N1", "D1"⟩)] "t" "N2" "D2" "h2"
    ⟨"N1", "D1"⟩ (by decide)).1

/-- A successful primitiveSchema result is a supported primitive, and so is
an array of it. -/
theorem primitiveSchema_ok {t : String} {d : DSchema}
    (h : primitiveSchema t = Except.ok d) :
    supportedSchema d = true ∧ supportedSchema (DSchema.darray d) = true := by
  unfold primitiveSchema at h
  split_ifs at h <;> injection h with h' <;> subst h' <;> exact ⟨rfl, rfl⟩

/-- A successfully built property schema is supported. -/
theorem buildProp_supported {spec : List (String × JValue)} {ts : String} {s : DSchema}
    (h : buildProp spec ts = Except.ok s) : supportedSchema s = true := by
  unfold buildProp at h
  split_ifs at h with harr
  · cases hitems : (objGet spec "items").bind asObj with
    | none =>
      simp only [hitems] at h
      exact (primitiveSchema_ok h).1
    | some items =>
      simp only [hitems] at h
      cases hit : (objGet items "type").bind getStr with
      | none =>
        simp only [hit] at h
        exact (primitiveSchema_ok h).1
      | some itemType =>
        simp only [hit] at h
        cases hp : primitiveSchema itemType with
        | error e =>
          rw [hp] at h
          simp [Except.map] at h
        | ok d =>
          rw [hp] at h
          simp [Except.map] at h
          rw [← h]
          exact (primitiveSchema_ok hp).2
  · exact (primitiveSchema_ok h).1

/-- Every schema in a successfully built property list is supported. -/
theorem buildProps_supported {props : List (String × JValue)} {l : List (String × DSchema)}
    (h : buildProps props = Except.ok l) : ∀ p ∈ l, supportedSchema p.2 = true := by
  induction props generalizing l with
  | nil =>
    simp [buildProps] at h
    subst h
    simp
  | cons q rest ih =>
    obtain ⟨n, specAny⟩ := q
    cases hso : asObj specAny with
    | none =>
      rw [show buildProps ((n, specAny) :: rest) = buildProps rest from by
        simp [buildProps, hso]] at h
      exact ih h
    | some spec =>
      cases hts : (objGet spec "type").bind getStr with
      | none =>
        rw [show buildProps ((n, specAny) :: rest) = buildProps rest from by
          simp [buildProps, hso, hts]] at h
        exact ih h
      | some ts =>
        cases hb : buildProp spec ts with
        | error e =>
          rw [show buildProps ((n, specAny) :: rest) = Except.error e from by
            simp [buildProps, hso, hts, hb]] at h
          exact absurd h (by simp)
        | ok s =>
          cases hr : buildProps rest with
          | error e =>
            rw [show buildProps ((n, specAny) :: rest) = Except.error e from by
              simp [buildProps, hso, hts, hb, hr]] at h
            exact absurd h (by simp)
          | ok l' =>
            have hl : l = (n, s) :: l' := by
              rw [show buildProps ((n, specAny) :: rest) = Except.ok ((n, s) :: l') from by
                simp [buildProps, hso, hts, hb, hr]] at h
              injection h with h'
              exact h'.symm
            subst hl
            intro p hp
            rcases List.mem_cons.mp hp with h' | h'
            · rw [h']
              exact buildProp_supported hb
            · exact ih hr p h'

/-- If any property of the list is well formed (an object spec with a string
type) and its schema construction throws, the whole property loop throws. -/
theorem buildProps_error {props : List (String × JValue)} {propName : String}
    {spec : List (String × JValue)} {typeString e : String}
    (hmem : (propName, JValue.jobj spec) ∈ props)
    (ht : (objGet spec "type").bind getStr = some typeString)
    (hb : buildProp spec typeString = Except.error e) :
    ∃ e', buildProps props = Except.error e' := by
  induction props with
  | nil => simp at hmem
  | cons q rest ih =>
    obtain ⟨n, specAny⟩ := q
    rcases List.mem_cons.mp hmem with h | h
    · have h1 : propName = n := congrArg Prod.fst h
      have h2 : JValue.jobj spec = specAny := congrArg Prod.snd h
      refine ⟨e, ?_⟩
      simp [buildProps, ← h2, asObj, ht, hb]
    · obtain ⟨e', he'⟩ := ih h
      cases hso : asObj specAny with
      | none => exact ⟨e', by simp [buildProps, hso, he']⟩
      | some spec2 =>
        cases hts : (objGet spec2 "type").bind getStr with
        | none => exact ⟨e', by simp [buildProps, hso, hts, he']⟩
        | some ts2 =>
          cases hb2 : buildProp spec2 ts2 with
          | error e2 => exact ⟨e2, by simp [buildProps, hso, hts, hb2]⟩
          | ok s2 => exact ⟨e', by simp [buildProps, hso, hts, hb2, he']⟩

/-- C7 counterexample: the schema with a property carrying no type field at
all is accepted (the property is silently skipped) and the provider call is
attempted, although that property is not of a supported primitive or
array-of-primitive type; so the validation does not accept only schemas
whose every named property is of a supported type. -/
theorem c7_counterexample :
    buildRootProperties badSchema = Except.ok []
    ∧ (generateWithDynamicSchema badSchema (Except.ok "r")).2 = true :=
  ⟨rfl, rfl⟩

/-- C7 amended: schema validation happens entirely before the provider call:
a thrown validation error means the provider call is never attempted; every
accepted property schema is a primitive or an array of one primitive; and
any property that is well formed (object spec with a string type) whose type
is unsupported makes the whole validation throw. Properties whose spec is
not an object carrying a string type are silently skipped, not rejected. -/
theorem c7_schema_validation (top : JValue) (provider : Except String String) :
    (∀ e, buildRootProperties top = Except.error e →
      generateWithDynamicSchema top provider = (Except.error e, false))
    ∧ (∀ l, buildRootProperties top = Except.ok l →
        ∀ p ∈ l, supportedSchema p.2 = true)
    ∧ (∀ props propName spec typeString e,
        (propName, JValue.jobj spec) ∈ props →
        (objGet spec "type").bind getStr = some typeString →
        buildProp spec typeString = Except.error e →
        ∃ e', buildProps props = Except.error e') := by
  refine ⟨?_, ?_, ?_⟩
  · intro e he
    simp [generateWithDynamicSchema, he]
  · intro l hl
    cases top with
    | jobj fields =>
      by_cases ht : (objGet fields "type").bind getStr = some "object"
      · cases hp : (objGet fields "properties").bind asObj with
        | none => simp [buildRootProperties, ht, hp] at hl
        | some props =>
          have hb : buildProps props = Except.ok l := by
            simpa [buildRootProperties, ht, hp] using hl
          exact buildProps_supported hb
      · simp [buildRootProperties, ht] at hl
    | jnull => simp [buildRootProperties] at hl
    | jbool b => simp [buildRootProperties] at hl
    | jnum n => simp [buildRootProperties] at hl
    | jstr s => simp [buildRootProperties] at hl
    | jarr items => simp [buildRootProperties] at hl
  · intro props propName spec typeString e hmem ht hb
    exact buildProps_error hmem ht hb

/-- Witness for c7_schema_validation: a nested-object property is rejected
with the descriptive error before the provider call. -/
theorem c7_witness :
    generateWithDynamicSchema nestedSchema (Except.ok "r")
      = (Except.error "Unsupported JSON Schema primitive type: object", false) :=
  (c7_schema_validation nestedSchema (Except.ok "r")).1
    "Unsupported JSON Schema primitive type: object" rfl

/-- A stream with no registered listener never has chunks forwarded: events
for it are dropped by the dispatcher, and the listener table only ever
shrinks. -/
theorem outputsFor_runEvents_nil {sid : String} {ls : List String}
    (h : sid ∉ ls) (evs : List StreamingChunk) :
    outputsFor sid (runEvents ls evs).2 = [] := by
  induction evs generalizing ls with
  | nil => rfl
  | cons e rest ih =>
    by_cases hmem : e.callId ∈ ls
    · have hne : ¬e.callId = sid := fun heq => h (heq ▸ hmem)
      have herase : sid ∉ ls.erase e.callId := fun hm => h (List.mem_of_mem_erase hm)
      by_cases hc : e.chunk = STREAMCOMPLETE
      · simp only [runEvents, handleEvent, if_pos hmem, if_pos hc,
          List.singleton_append, outputsFor]
        simp only [if_neg hne]
        exact ih herase
      · by_cases he2 : e.chunk = STREAMERROR
        · simp only [runEvents, handleEvent, if_pos hmem, if_neg hc, if_pos he2,
            List.singleton_append, outputsFor]
          simp only [if_neg hne]
          exact ih herase
        · simp only [runEvents, handleEvent, if_pos hmem, if_neg hc, if_neg he2,
            List.singleton_append, outputsFor]
          simp only [if_neg hne]
          exact ih h
    · simp only [runEvents, handleEvent, if_neg hmem, List.nil_append]
      exact ih h

/-- C1 counterexample: the sentinel completion literal is itself forwarded to
the caller's chunk callback as content (the terminal signal is delivered in
band), refuting the claim that the forwarded sequence never includes the
sentinel literals. -/
theorem c1_counterexample :
    outputsFor "s1" (runEvents ["s1"]
        [⟨"Hello", "s1"⟩, ⟨"[STREAM_COMPLETE]", "s1"⟩]).2
      = ["Hello", "[STREAM_COMPLETE]"]
    ∧ "[STREAM_COMPLETE]" ∈ outputsFor "s1" (runEvents ["s1"]
        [⟨"Hello", "s1"⟩, ⟨"[STREAM_COMPLETE]", "s1"⟩]).2 := by
  exact ⟨by decide, by decide⟩

/-- C1 amended: for a stream id with a (single) registered listener, the
chunks forwarded to its caller are exactly the stream's incoming chunks up
to and including the first sentinel: the sentinel literal itself is
forwarded as the one terminal signal, the listener is deregistered at that
point, and no further chunks for that stream id are forwarded afterwards;
routing is by stream id only. -/
theorem c1_sentinel_forwarding (sid : String) (ls : List String)
    (evs : List StreamingChunk) (hmem : sid ∈ ls) (hnd : ls.Nodup) :
    outputsFor sid (runEvents ls evs).2 = forwardedForStream (streamChunks sid evs) := by
  induction evs generalizing ls with
  | nil => rfl
  | cons e rest ih =>
    by_cases hid : e.callId = sid
    · have hm : e.callId ∈ ls := hid ▸ hmem
      have hnot : sid ∉ ls.erase e.callId := hid ▸ hnd.not_mem_erase
      by_cases hc : e.chunk = STREAMCOMPLETE
      · have hs : isSentinel e.chunk := Or.inl hc
        simp only [runEvents, handleEvent, if_pos hm, if_pos hc, List.singleton_append,
          outputsFor, if_pos hid, streamChunks, forwardedForStream, if_pos hs]
        rw [outputsFor_runEvents_nil hnot rest]
      · by_cases he2 : e.chunk = STREAMERROR
        · have hs : isSentinel e.chunk := Or.inr he2
          simp only [runEvents, handleEvent, if_pos hm, if_neg hc, if_pos he2,
            List.singleton_append, outputsFor, if_pos hid, streamChunks,
            forwardedForStream, if_pos hs]
          rw [outputsFor_runEvents_nil hnot rest]
        · have hs : ¬isSentinel e.chunk := by
            intro hor
            rcases hor with hor | hor
            · exact hc hor
            · exact he2 hor
          simp only [runEvents, handleEvent, if_pos hm, if_neg hc, if_neg he2,
            List.singleton_append, outputsFor, if_pos hid, streamChunks,
            forwardedForStream, if_neg hs]
          exact congrArg (e.chunk :: ·) (ih ls hmem hnd)
    · have hsid : sid ≠ e.callId := fun heq => hid heq.symm
      by_cases hmem2 : e.callId ∈ ls
      · have hmem3 : sid ∈ ls.erase e.callId := (List.mem_erase_of_ne hsid).mpr hmem
        have hnd3 : (ls.erase e.callId).Nodup := hnd.erase e.callId
        by_cases hc : e.chunk = STREAMCOMPLETE
        · simp only [runEvents, handleEvent, if_pos hmem2, if_pos hc,
            List.singleton_append, outputsFor, if_neg hid, streamChunks]
          exact ih (ls.erase e.callId) hmem3 hnd3
        · by_cases he2 : e.chunk = STREAMERROR
          · simp only [runEvents, handleEvent, if_pos hmem2, if_neg hc, if_pos he2,
              List.singleton_append, outputsFor, if_neg hid, streamChunks]
            exact ih (ls.erase e.callId) hmem3 hnd3
          · simp only [runEvents, handleEvent, if_pos hmem2, if_neg hc, if_neg he2,
              List.singleton_append, outputsFor, if_neg hid, streamChunks]
            exact ih ls hmem hnd
      · simp only [runEvents, handleEvent, if_neg hmem2, List.nil_append, streamChunks,
          if_neg hid]
        exact ih ls hmem hnd

/-- Witness for c1_sentinel_forwarding: two content chunks, the terminal
sentinel, then a late chunk that is dropped. -/
theorem c1_witness :
    outputsFor "s1" (runEvents ["s1", "s2"]
        [⟨"He", "s1"⟩, ⟨"llo", "s1"⟩, ⟨"[STREAM_COMPLETE]", "s1"⟩, ⟨"late", "s1"⟩]).2
      = forwardedForStream (streamChunks "s1"
        [⟨"He", "s1"⟩, ⟨"llo", "s1"⟩, ⟨"[STREAM_COMPLETE]", "s1"⟩, ⟨"late", "s1"⟩]) :=
  c1_sentinel_forwarding "s1" ["s1", "s2"] _ (by decide) (by decide)

/-- C6: the claim fails on the code: generateStreaming registers the chunk
listener only after the provider start call has returned the stream id
(the id is not known earlier), not before or atomically with it, and a
streamingUpdate event dispatched in that window finds no listener and is
dropped by the global handler. -/
theorem c6_listener_after_start :
    generateStreamingTrace availEx (Except.ok "s1")
      = [StreamAction.checkAvail, StreamAction.providerStart,
          StreamAction.registerListener "s1"]
    ∧ handleEvent [] ⟨"Hello", "s1"⟩ = ([], none) := by
  exact ⟨rfl, by decide⟩

end FM
